import Mathlib

/-!
Shallow embedding of the NoteAPP data layer (`src/App.tsx` and
`src/components/ui/FileOperations.tsx`).

The application keeps five in-memory collections (highlights, todos,
events, resources, ideapadNotes) and mutates them with small CRUD
functions.  Each mutation that inserts re-sorts the collection with
JavaScript's stable `Array.prototype.sort` under a numeric comparator;
we model that as `List.insertionSort` over the relation
`fun a b => cmp a b ≤ 0`, which is a stable sort producing a list
sorted for that total preorder, exactly the ES2019 contract.

Impure ingredients are passed explicitly:
  * `generateId()` results and `Date.now()` timestamps are arguments of
    the `add*` functions;
  * `new Date(string).getTime()` (used only by the event comparator) is
    an abstract valuation `dv : String → Int`;
  * `localStorage.getItem` and `JSON.parse` (startup hydration) are
    function arguments of `loadApp`.
-/

namespace NoteApp

/-- `interface Highlight` from `src/App.tsx`. -/
structure Highlight where
  id : String
  text : String
  datetime : String
  color : String
  createdAt : Int
deriving DecidableEq

/-- `interface Todo` from `src/App.tsx`. -/
structure Todo where
  id : String
  text : String
  completed : Bool
  color : String
  createdAt : Int
deriving DecidableEq

/-- `interface CalendarEvent` from `src/App.tsx`. -/
structure CalendarEvent where
  id : String
  title : String
  date : String
  time : Int
  color : String
  relatedHighlightId : Option String
  relatedResourceId : Option String
  createdAt : Int
deriving DecidableEq

/-- The `type` field of a `Resource` (`'link' | 'note'`). -/
inductive RKind where
  | link
  | renote
deriving DecidableEq

/-- `interface Resource` from `src/App.tsx`. -/
structure Resource where
  id : String
  name : String
  type : RKind
  content : String
  color : String
  createdAt : Int
deriving DecidableEq

/-- The anonymous ideapad-note shape `{id, text, createdAt, color}` of
`src/App.tsx`. -/
structure IdeaNote where
  id : String
  text : String
  color : String
  createdAt : Int
deriving DecidableEq

/-- The five collection states held by the `NoteApp` component. -/
structure AppState where
  highlights : List Highlight
  todos : List Todo
  events : List CalendarEvent
  resources : List Resource
  ideapadNotes : List IdeaNote
deriving DecidableEq

/-- The initial `useState([])` state: all five collections empty. -/
def emptyState : AppState := ⟨[], [], [], [], []⟩

/-! ### Sort comparators

JavaScript `x || y` on numbers: `x` when `x ≠ 0`, else `y`. -/

/-- JavaScript `||` on comparator results. -/
def jsOr (x y : Int) : Int := if x = 0 then y else x

/-- JavaScript `Number` on a boolean. -/
def boolNum (b : Bool) : Int := if b then 1 else 0

/-- Highlight comparator `(a, b) => b.createdAt - a.createdAt`, read as
the relation "`a` sorts no later than `b`" (comparator value `≤ 0`). -/
def hlLE (a b : Highlight) : Prop := b.createdAt - a.createdAt ≤ 0

instance : DecidableRel hlLE := fun _ _ => Int.decLe _ _

/-- Resource comparator `(a, b) => b.createdAt - a.createdAt`. -/
def resLE (a b : Resource) : Prop := b.createdAt - a.createdAt ≤ 0

instance : DecidableRel resLE := fun _ _ => Int.decLe _ _

/-- Ideapad-note comparator `(a, b) => b.createdAt - a.createdAt`. -/
def noteLE (a b : IdeaNote) : Prop := b.createdAt - a.createdAt ≤ 0

instance : DecidableRel noteLE := fun _ _ => Int.decLe _ _

/-- Todo comparator
`(a, b) => Number(a.completed) - Number(b.completed) || b.createdAt - a.createdAt`. -/
def todoLE (a b : Todo) : Prop :=
  jsOr (boolNum a.completed - boolNum b.completed) (b.createdAt - a.createdAt) ≤ 0

instance : DecidableRel todoLE := fun _ _ => Int.decLe _ _

/-- Event comparator
`(a, b) => new Date(a.date).getTime() - new Date(b.date).getTime() || b.createdAt - a.createdAt`,
with `new Date(·).getTime()` abstracted as the valuation `dv`. -/
def evLE (dv : String → Int) (a b : CalendarEvent) : Prop :=
  jsOr (dv a.date - dv b.date) (b.createdAt - a.createdAt) ≤ 0

instance (dv : String → Int) : DecidableRel (evLE dv) := fun _ _ => Int.decLe _ _

/-! ### CRUD operations (`src/App.tsx` lines 120-185) -/

/-- `addHighlight`: append the new highlight, then stable-sort. -/
def addHighlight (text datetime color id : String) (now : Int) (s : AppState) : AppState :=
  { s with highlights :=
      List.insertionSort hlLE (s.highlights ++ [⟨id, text, datetime, color, now⟩]) }

/-- `deleteHighlight`: drop the highlight with that id and every event
whose `relatedHighlightId` equals it. -/
def deleteHighlight (id : String) (s : AppState) : AppState :=
  { s with highlights := s.highlights.filter (fun h => h.id ≠ id),
           events := s.events.filter (fun e => e.relatedHighlightId ≠ some id) }

/-- `addTodo`: append `{completed: false, ...}`, then stable-sort. -/
def addTodo (text color id : String) (now : Int) (s : AppState) : AppState :=
  { s with todos :=
      List.insertionSort todoLE (s.todos ++ [⟨id, text, false, color, now⟩]) }

/-- The `map` body of `toggleTodo`: flip `completed` on an id match. -/
def toggleOne (id : String) (t : Todo) : Todo :=
  if t.id = id then { t with completed := !t.completed } else t

/-- `toggleTodo`: flip the matching todo's `completed`, then stable-sort. -/
def toggleTodo (id : String) (s : AppState) : AppState :=
  { s with todos := List.insertionSort todoLE (s.todos.map (toggleOne id)) }

/-- `deleteTodo`. -/
def deleteTodo (id : String) (s : AppState) : AppState :=
  { s with todos := s.todos.filter (fun t => t.id ≠ id) }

/-- `addEvent`: append the new event (related ids stored verbatim, no
existence check), then stable-sort by date with the valuation `dv`. -/
def addEvent (dv : String → Int) (title date color : String) (time : Int)
    (rh rr : Option String) (id : String) (now : Int) (s : AppState) : AppState :=
  { s with events :=
      List.insertionSort (evLE dv) (s.events ++ [⟨id, title, date, time, color, rh, rr, now⟩]) }

/-- `deleteEvent`. -/
def deleteEvent (id : String) (s : AppState) : AppState :=
  { s with events := s.events.filter (fun e => e.id ≠ id) }

/-- `addResource`: append, then stable-sort. -/
def addResource (name : String) (ty : RKind) (content color id : String)
    (now : Int) (s : AppState) : AppState :=
  { s with resources :=
      List.insertionSort resLE (s.resources ++ [⟨id, name, ty, content, color, now⟩]) }

/-- `deleteResource`: drop the resource with that id and every event
whose `relatedResourceId` equals it. -/
def deleteResource (id : String) (s : AppState) : AppState :=
  { s with resources := s.resources.filter (fun r => r.id ≠ id),
           events := s.events.filter (fun e => e.relatedResourceId ≠ some id) }

/-- `addIdeapadNote`: append, then stable-sort. -/
def addIdeapadNote (text color id : String) (now : Int) (s : AppState) : AppState :=
  { s with ideapadNotes :=
      List.insertionSort noteLE (s.ideapadNotes ++ [⟨id, text, color, now⟩]) }

/-- `deleteIdeapadNote`. -/
def deleteIdeapadNote (id : String) (s : AppState) : AppState :=
  { s with ideapadNotes := s.ideapadNotes.filter (fun n => n.id ≠ id) }

/-! ### UI add handlers (empty-input guards) -/

/-- The JavaScript guard `!s.trim()`: `String.prototype.trim` drops
leading and trailing whitespace, so the trimmed string is empty (the
only falsy string) exactly when every character of `s` is whitespace.
We model that test directly as an executable all-whitespace check. -/
def trimEmpty (s : String) : Bool := s.data.all Char.isWhitespace

/-- `handleAddHighlight` (`src/App.tsx` 378-384): rejects blank text. -/
def handleAddHighlight (text datetime color id : String) (now : Int)
    (s : AppState) : AppState :=
  if trimEmpty text then s else addHighlight text datetime color id now s

/-- `handleAddTodo` (`src/App.tsx` 437-441): rejects blank text. -/
def handleAddTodo (text color id : String) (now : Int) (s : AppState) : AppState :=
  if trimEmpty text then s else addTodo text color id now s

/-- `handleAddEvent` (`src/App.tsx` 518-524): rejects a blank title or a
missing selected date. -/
def handleAddEvent (dv : String → Int) (title : String) (selectedDate : Option String)
    (color : String) (time : Int) (rh rr : Option String) (id : String) (now : Int)
    (s : AppState) : AppState :=
  if trimEmpty title then s
  else
    match selectedDate with
    | none => s
    | some d => addEvent dv title d color time rh rr id now s

/-- `handleAddNote` (`src/App.tsx` 692-696): rejects blank text. -/
def handleAddIdeapadNote (text color id : String) (now : Int) (s : AppState) : AppState :=
  if trimEmpty text then s else addIdeapadNote text color id now s

/-- `handleAddResource` (`src/App.tsx` 748-753): rejects a blank name or
blank content. -/
def handleAddResource (name : String) (ty : RKind) (content color id : String)
    (now : Int) (s : AppState) : AppState :=
  if trimEmpty name ∨ trimEmpty content then s
  else addResource name ty content color id now s

/-! ### Comparator characterizations and order instances -/

/-- `hlLE` is descending `createdAt`. -/
theorem hlLE_iff (a b : Highlight) : hlLE a b ↔ b.createdAt ≤ a.createdAt := by
  unfold hlLE; omega

/-- `resLE` is descending `createdAt`. -/
theorem resLE_iff (a b : Resource) : resLE a b ↔ b.createdAt ≤ a.createdAt := by
  unfold resLE; omega

/-- `noteLE` is descending `createdAt`. -/
theorem noteLE_iff (a b : IdeaNote) : noteLE a b ↔ b.createdAt ≤ a.createdAt := by
  unfold noteLE; omega

/-- `todoLE` is: incomplete before complete, ties by descending `createdAt`. -/
theorem todoLE_iff (a b : Todo) :
    todoLE a b ↔
      ((a.completed = false ∧ b.completed = true) ∨
        (a.completed = b.completed ∧ b.createdAt ≤ a.createdAt)) := by
  cases ha : a.completed <;> cases hb : b.completed <;>
    simp [todoLE, jsOr, boolNum, ha, hb]

/-- `evLE dv` is: ascending date value, ties by descending `createdAt`. -/
theorem evLE_iff (dv : String → Int) (a b : CalendarEvent) :
    evLE dv a b ↔
      (dv a.date < dv b.date ∨ (dv a.date = dv b.date ∧ b.createdAt ≤ a.createdAt)) := by
  unfold evLE jsOr
  by_cases h : dv a.date - dv b.date = 0 <;> simp [h] <;> omega

instance : IsTotal Highlight hlLE :=
  ⟨fun a b => by simp only [hlLE_iff]; omega⟩

instance : IsTrans Highlight hlLE :=
  ⟨fun a b c hab hbc => by simp only [hlLE_iff] at *; omega⟩

instance : IsTotal Resource resLE :=
  ⟨fun a b => by simp only [resLE_iff]; omega⟩

instance : IsTrans Resource resLE :=
  ⟨fun a b c hab hbc => by simp only [resLE_iff] at *; omega⟩

instance : IsTotal IdeaNote noteLE :=
  ⟨fun a b => by simp only [noteLE_iff]; omega⟩

instance : IsTrans IdeaNote noteLE :=
  ⟨fun a b c hab hbc => by simp only [noteLE_iff] at *; omega⟩

instance : IsTotal Todo todoLE :=
  ⟨fun a b => by
    simp only [todoLE_iff]
    cases a.completed <;> cases b.completed <;> simp <;> omega⟩

instance : IsTrans Todo todoLE :=
  ⟨fun a b c hab hbc => by
    simp only [todoLE_iff] at *
    cases ha : a.completed <;> cases hb : b.completed <;> cases hc : c.completed <;>
      simp_all <;> omega⟩

instance (dv : String → Int) : IsTotal CalendarEvent (evLE dv) :=
  ⟨fun a b => by simp only [evLE_iff]; omega⟩

instance (dv : String → Int) : IsTrans CalendarEvent (evLE dv) :=
  ⟨fun a b c hab hbc => by simp only [evLE_iff] at *; omega⟩

/-! ### Stable sort commutes with filter

These generic lemmas let us reason about `delete` (a `filter`) applied
right after `add` (an append followed by a stable sort). -/

section SortFilter

variable {α : Type} (r : α → α → Prop) [DecidableRel r]

/-- Inserting an element that sorts no later than everything in the list
puts it at the front. -/
theorem orderedInsert_eq_cons (a : α) (l : List α) (h : ∀ c ∈ l, r a c) :
    List.orderedInsert r a l = a :: l := by
  cases l with
  | nil => rfl
  | cons b t => simp [List.orderedInsert, h b (by simp)]

variable [IsTrans α r]

/-- On a sorted list, `orderedInsert` commutes with `filter`. -/
theorem filter_orderedInsert (p : α → Bool) (a : α) :
    ∀ l : List α, l.Sorted r →
      (List.orderedInsert r a l).filter p =
        if p a then List.orderedInsert r a (l.filter p) else l.filter p := by
  intro l
  induction l with
  | nil => intro _; by_cases hpa : p a <;> simp [List.orderedInsert, hpa]
  | cons b t ih =>
    intro hs
    by_cases hr : r a b
    · have hall : ∀ c ∈ (b :: t).filter p, r a c := by
        intro c hc
        have hmem : c ∈ b :: t := List.mem_of_mem_filter hc
        rcases List.mem_cons.mp hmem with hcb | hct
        · exact hcb ▸ hr
        · exact IsTrans.trans a b c hr (List.rel_of_sorted_cons hs c hct)
      by_cases hpa : p a
      · simp only [List.orderedInsert, if_pos hr, if_pos hpa]
        rw [List.filter_cons_of_pos (by simpa using hpa),
          orderedInsert_eq_cons r a _ hall]
      · simp only [List.orderedInsert, if_pos hr, if_neg hpa]
        rw [List.filter_cons_of_neg (by simpa using hpa)]
    · have ht := ih (List.Sorted.of_cons hs)
      by_cases hpb : p b
      · simp only [List.orderedInsert, if_neg hr]
        rw [List.filter_cons_of_pos (by simpa using hpb), ht,
          List.filter_cons_of_pos (by simpa using hpb)]
        by_cases hpa : p a
        · simp only [if_pos hpa, List.orderedInsert, if_neg hr]
        · simp only [if_neg hpa]
      · simp only [List.orderedInsert, if_neg hr]
        rw [List.filter_cons_of_neg (by simpa using hpb), ht,
          List.filter_cons_of_neg (by simpa using hpb)]

variable [IsTotal α r]

/-- A stable insertion sort commutes with `filter`. -/
theorem filter_insertionSort (p : α → Bool) :
    ∀ l : List α, (List.insertionSort r l).filter p = List.insertionSort r (l.filter p) := by
  intro l
  induction l with
  | nil => rfl
  | cons a t ih =>
    simp only [List.insertionSort]
    rw [filter_orderedInsert r p a _ (List.sorted_insertionSort r t), ih]
    by_cases hpa : p a
    · rw [List.filter_cons_of_pos (by simpa using hpa)]
      simp [List.insertionSort, hpa]
    · rw [List.filter_cons_of_neg (by simpa using hpa)]
      simp [hpa]

end SortFilter

/-! ### Operation sequences (for the sort-order invariant) -/

/-- One user-level mutation of the five collections, with the impure
inputs (`generateId()` result, `Date.now()` value, form fields) recorded
in the constructor. -/
inductive Op where
  | addHighlight (text datetime color id : String) (now : Int)
  | deleteHighlight (id : String)
  | addTodo (text color id : String) (now : Int)
  | toggleTodo (id : String)
  | deleteTodo (id : String)
  | addEvent (title date color : String) (time : Int) (rh rr : Option String)
      (id : String) (now : Int)
  | deleteEvent (id : String)
  | addResource (name : String) (ty : RKind) (content color id : String) (now : Int)
  | deleteResource (id : String)
  | addIdeapadNote (text color id : String) (now : Int)
  | deleteIdeapadNote (id : String)

/-- Apply one mutation (with the event-date valuation `dv`). -/
def applyOp (dv : String → Int) : Op → AppState → AppState
  | .addHighlight text datetime color id now => addHighlight text datetime color id now
  | .deleteHighlight id => deleteHighlight id
  | .addTodo text color id now => addTodo text color id now
  | .toggleTodo id => toggleTodo id
  | .deleteTodo id => deleteTodo id
  | .addEvent title date color time rh rr id now => addEvent dv title date color time rh rr id now
  | .deleteEvent id => deleteEvent id
  | .addResource name ty content color id now => addResource name ty content color id now
  | .deleteResource id => deleteResource id
  | .addIdeapadNote text color id now => addIdeapadNote text color id now
  | .deleteIdeapadNote id => deleteIdeapadNote id

/-- Apply a finite sequence of mutations, left to right. -/
def runOps (dv : String → Int) (ops : List Op) (s : AppState) : AppState :=
  ops.foldl (fun st op => applyOp dv op st) s

/-- The per-collection display-order invariant: each collection is
sorted for its own comparator relation. -/
def sortedInv (dv : String → Int) (s : AppState) : Prop :=
  s.highlights.Sorted hlLE ∧ s.todos.Sorted todoLE ∧ s.events.Sorted (evLE dv) ∧
    s.resources.Sorted resLE ∧ s.ideapadNotes.Sorted noteLE

/-- Every single mutation re-establishes the sort-order invariant. -/
theorem applyOp_sortedInv (dv : String → Int) (op : Op) (s : AppState)
    (h : sortedInv dv s) : sortedInv dv (applyOp dv op s) := by
  obtain ⟨h1, h2, h3, h4, h5⟩ := h
  cases op <;>
    simp only [applyOp, addHighlight, deleteHighlight, addTodo, toggleTodo, deleteTodo,
      addEvent, deleteEvent, addResource, deleteResource, addIdeapadNote,
      deleteIdeapadNote, sortedInv] <;>
    exact ⟨by first | exact List.sorted_insertionSort _ _ | exact List.Sorted.filter _ h1 | exact h1,
           by first | exact List.sorted_insertionSort _ _ | exact List.Sorted.filter _ h2 | exact h2,
           by first | exact List.sorted_insertionSort _ _ | exact List.Sorted.filter _ h3 | exact h3,
           by first | exact List.sorted_insertionSort _ _ | exact List.Sorted.filter _ h4 | exact h4,
           by first | exact List.sorted_insertionSort _ _ | exact List.Sorted.filter _ h5 | exact h5⟩

/-- The invariant is preserved by arbitrary mutation sequences. -/
theorem runOps_sortedInv (dv : String → Int) (ops : List Op) (s : AppState)
    (h : sortedInv dv s) : sortedInv dv (runOps dv ops s) := by
  induction ops generalizing s with
  | nil => exact h
  | cons op rest ih => exact ih _ (applyOp_sortedInv dv op s h)

/-- The empty initial state satisfies the invariant. -/
theorem emptyState_sortedInv (dv : String → Int) : sortedInv dv emptyState := by
  refine ⟨?_, ?_, ?_, ?_, ?_⟩ <;> exact List.sorted_nil

/-! ### Startup hydration (`src/App.tsx` lines 72-97)

The load effect reads five documents and parses them inside a single
`try`; the `catch` resets all five collections to `[]`.  `localStorage`
is modelled by `getItem : String → Option String` and each
`JSON.parse` call by a `String → Option (List _)` function whose `none`
models a thrown parse exception. -/

/-- One `if (saved) setX(JSON.parse(saved))` step: skip a missing
document, adopt a parsed one, propagate a parse exception. -/
def hydrateStep {α : Type} (p : String → Option α) (doc : Option String)
    (cur : α) : Except Unit α :=
  match doc with
  | none => .ok cur
  | some s =>
    match p s with
    | some v => .ok v
    | none => .error ()

/-- The loaded value of one collection when no step threw: `[]` for a
missing document, the parsed list otherwise. -/
def hydOf {α : Type} (p : String → Option (List α)) (doc : Option String) : List α :=
  match doc with
  | none => []
  | some s => (p s).getD []

/-- The document for `p` is absent or parses. -/
def docOK {α : Type} (p : String → Option (List α)) (doc : Option String) : Prop :=
  ∀ s, doc = some s → (p s).isSome

/-- The document for `p` is present and throws on parse. -/
def docBad {α : Type} (p : String → Option (List α)) (doc : Option String) : Prop :=
  ∃ s, doc = some s ∧ p s = none

/-- Combine the five step outcomes: the `catch` resets every collection
to `[]` as soon as any step threw. -/
def assembleLoaded (a : Except Unit (List Highlight)) (b : Except Unit (List Todo))
    (c : Except Unit (List CalendarEvent)) (d : Except Unit (List Resource))
    (e : Except Unit (List IdeaNote)) : AppState :=
  match a, b, c, d, e with
  | .ok h, .ok t, .ok ev, .ok r, .ok i => AppState.mk h t ev r i
  | _, _, _, _, _ => emptyState

/-- The load effect.  The five steps run in one `try`; a parse
exception in any of them reaches the `catch`, which sets all five
collections to `[]` (the pure steps are order-independent, so the
outcome only depends on whether any step threw). -/
def loadApp (getItem : String → Option String)
    (pH : String → Option (List Highlight)) (pT : String → Option (List Todo))
    (pE : String → Option (List CalendarEvent)) (pR : String → Option (List Resource))
    (pI : String → Option (List IdeaNote)) : AppState :=
  assembleLoaded
    (hydrateStep pH (getItem "appData_highlights") [])
    (hydrateStep pT (getItem "appData_todos") [])
    (hydrateStep pE (getItem "appData_events") [])
    (hydrateStep pR (getItem "appData_resources") [])
    (hydrateStep pI (getItem "appData_ideapadNotes") [])

/-! ### File import (`src/components/ui/FileOperations.tsx` 34-55)

The `reader.onload` callback parses the file text and either hands the
parsed document to `onImport` and clears the error, or keeps the
collections untouched and sets a user-visible error message.
`JSON.parse` is modelled by `parse : String → Option δ`. -/

/-- Observable outcome of one `onload` run: the `onImport` invocations
and the final error banner. -/
structure ImportOutcome (δ : Type) where
  calls : List δ
  errorMsg : Option String
deriving DecidableEq

/-- The `reader.onload` body of `handleImport`. -/
def handleImportOnload {δ : Type} (parse : String → Option δ)
    (content : String) : ImportOutcome δ :=
  match parse content with
  | some d => ⟨[d], none⟩
  | none => ⟨[], some "匯入資料格式不正確，請確保是有效的 JSON 檔案"⟩

/-! ### Concrete sample data (for witnesses and counterexamples) -/

/-- A sample highlight. -/
def hSample : Highlight := ⟨"h1", "alpha", "2024-05-01T00:00:00Z", "bg-red-200", 100⟩

/-- A sample todo. -/
def tSample : Todo := ⟨"t1", "buy milk", false, "bg-yellow-200", 50⟩

/-- A sample event that dangles: its `relatedHighlightId` is `"a"` but
no highlight (and no resource) exists. -/
def eDangling : CalendarEvent := ⟨"e1", "Meeting", "2024-05-01", 0, "bg-blue-200", some "a", some "b", 10⟩

/-- A state holding only the dangling event. -/
def danglingState : AppState := ⟨[], [], [eDangling], [], []⟩

/-- Sample storage: a readable highlights document and an unparseable
todos document; the other three keys are absent. -/
def storageSample : String → Option String := fun k =>
  if k = "appData_highlights" then some "good"
  else if k = "appData_todos" then some "bad" else none

/-- Sample `JSON.parse` for highlight documents. -/
def parseHSample : String → Option (List Highlight) := fun s =>
  if s = "good" then some [hSample] else none

/-- Sample `JSON.parse` for todo documents: throws on `"bad"`. -/
def parseTSample : String → Option (List Todo) := fun s =>
  if s = "ok" then some [tSample] else none

/-- Sample `JSON.parse` succeeding with `[]` on anything. -/
def parseESample : String → Option (List CalendarEvent) := fun _ => some []

/-- Sample `JSON.parse` succeeding with `[]` on anything. -/
def parseRSample : String → Option (List Resource) := fun _ => some []

/-- Sample `JSON.parse` succeeding with `[]` on anything. -/
def parseISample : String → Option (List IdeaNote) := fun _ => some []

/-! ### Helper lemmas -/

/-- A present-but-unparseable document makes its step throw. -/
theorem hydrateStep_of_docBad {α : Type} (p : String → Option (List α))
    (doc : Option String) (h : docBad p doc) : hydrateStep p doc [] = .error () := by
  obtain ⟨s, hs, hp⟩ := h
  simp [hydrateStep, hs, hp]

/-- An absent or parseable document makes its step return its hydrated
value. -/
theorem hydrateStep_of_docOK {α : Type} (p : String → Option (List α))
    (doc : Option String) (h : docOK p doc) : hydrateStep p doc [] = .ok (hydOf p doc) := by
  cases doc with
  | none => rfl
  | some s =>
    have hsome := h s rfl
    cases hp : p s with
    | none => rw [hp] at hsome; simp at hsome
    | some v => simp [hydrateStep, hydOf, hp]

/-- If any step threw, the assembled state is entirely empty. -/
theorem assembleLoaded_of_error (a : Except Unit (List Highlight))
    (b : Except Unit (List Todo)) (c : Except Unit (List CalendarEvent))
    (d : Except Unit (List Resource)) (e : Except Unit (List IdeaNote))
    (h : a = .error () ∨ b = .error () ∨ c = .error () ∨ d = .error () ∨ e = .error ()) :
    assembleLoaded a b c d e = emptyState := by
  cases a <;> cases b <;> cases c <;> cases d <;> cases e <;> simp_all [assembleLoaded]

/-- Append one element, stable-sort, then filter it (and nothing else)
back out: only the sort of the original list remains. -/
theorem filter_insertionSort_append {α : Type} (r : α → α → Prop) [DecidableRel r]
    [IsTotal α r] [IsTrans α r] (p : α → Bool) (l : List α) (x : α)
    (hx : p x = false) (hall : ∀ y ∈ l, p y = true) :
    (List.insertionSort r (l ++ [x])).filter p = List.insertionSort r l := by
  rw [filter_insertionSort, List.filter_append]
  rw [List.filter_eq_self.mpr hall]
  simp [hx]

/-! ### Claim theorems -/

/-- C1: for every state, highlight `h` and resource `r`,
`deleteHighlight h.id` keeps exactly the events whose
`relatedHighlightId` differs from `h.id`, and `deleteResource r.id`
keeps exactly the events whose `relatedResourceId` differs from
`r.id`; every other event remains. -/
theorem cascade_delete_removes_exactly_related (s : AppState) (h : Highlight)
    (r : Resource) (e : CalendarEvent) :
    (e ∈ (deleteHighlight h.id s).events ↔
      e ∈ s.events ∧ e.relatedHighlightId ≠ some h.id) ∧
    (e ∈ (deleteResource r.id s).events ↔
      e ∈ s.events ∧ e.relatedResourceId ≠ some r.id) := by
  constructor <;> simp [deleteHighlight, deleteResource, List.mem_filter]

/-- C2 (counterexample): deleting an id absent from the highlights
collection is not always a whole-state no-op — with a dangling
`relatedHighlightId` reference, `deleteHighlight` still removes the
referencing event. -/
theorem deleteHighlight_absent_id_not_noop :
    danglingState.highlights = [] ∧ deleteHighlight "a" danglingState ≠ danglingState := by
  refine ⟨rfl, ?_⟩
  intro heq
  have hev := congrArg AppState.events heq
  simp [deleteHighlight, danglingState, eDangling] at hev

/-- C2 (amended): deleting an absent id is a whole-state no-op for
`deleteTodo`, `deleteEvent` and `deleteIdeapadNote` unconditionally;
for `deleteHighlight` (resp. `deleteResource`) it is a no-op provided
additionally no event's `relatedHighlightId` (resp.
`relatedResourceId`) equals the id.  No operation raises an error:
all are total functions. -/
theorem delete_absent_id_noop (id : String) (s : AppState) :
    ((∀ t ∈ s.todos, t.id ≠ id) → deleteTodo id s = s) ∧
    ((∀ e ∈ s.events, e.id ≠ id) → deleteEvent id s = s) ∧
    ((∀ n ∈ s.ideapadNotes, n.id ≠ id) → deleteIdeapadNote id s = s) ∧
    ((∀ h ∈ s.highlights, h.id ≠ id) →
      (∀ e ∈ s.events, e.relatedHighlightId ≠ some id) → deleteHighlight id s = s) ∧
    ((∀ r ∈ s.resources, r.id ≠ id) →
      (∀ e ∈ s.events, e.relatedResourceId ≠ some id) → deleteResource id s = s) := by
  obtain ⟨hs, ts, es, rs, ns⟩ := s
  refine ⟨fun hT => ?_, fun hE => ?_, fun hN => ?_,
    fun hH hHE => ?_, fun hR hRE => ?_⟩ <;>
    simp only [deleteTodo, deleteEvent, deleteIdeapadNote, deleteHighlight, deleteResource,
      AppState.mk.injEq, and_true, true_and]
  · exact List.filter_eq_self.mpr fun a ha => by simpa using hT a ha
  · exact List.filter_eq_self.mpr fun a ha => by simpa using hE a ha
  · exact List.filter_eq_self.mpr fun a ha => by simpa using hN a ha
  · exact ⟨List.filter_eq_self.mpr fun a ha => by simpa using hH a ha,
      List.filter_eq_self.mpr fun a ha => by simpa using hHE a ha⟩
  · exact ⟨List.filter_eq_self.mpr fun a ha => by simpa using hRE a ha,
      List.filter_eq_self.mpr fun a ha => by simpa using hR a ha⟩

/-- C2 (witness for the amended theorem). -/
theorem delete_absent_id_noop_witness :
    deleteTodo "z" danglingState = danglingState ∧
    deleteEvent "z" danglingState = danglingState ∧
    deleteIdeapadNote "z" danglingState = danglingState ∧
    deleteHighlight "z" danglingState = danglingState ∧
    deleteResource "z" danglingState = danglingState :=
  ⟨(delete_absent_id_noop "z" danglingState).1 (by decide),
   (delete_absent_id_noop "z" danglingState).2.1 (by decide),
   (delete_absent_id_noop "z" danglingState).2.2.1 (by decide),
   (delete_absent_id_noop "z" danglingState).2.2.2.1 (by decide) (by decide),
   (delete_absent_id_noop "z" danglingState).2.2.2.2 (by decide) (by decide)⟩

/-- C3: every section-level add handler is a whole-state no-op when its
primary text/title field trims to the empty string (blank or
whitespace-only input). -/
theorem handleAdd_blank_primary_noop (dv : String → Int)
    (text datetime color id content : String) (ty : RKind)
    (selectedDate : Option String) (time now : Int) (rh rr : Option String)
    (s : AppState) (hblank : trimEmpty text = true) :
    handleAddHighlight text datetime color id now s = s ∧
    handleAddTodo text color id now s = s ∧
    handleAddEvent dv text selectedDate color time rh rr id now s = s ∧
    handleAddIdeapadNote text color id now s = s ∧
    handleAddResource text ty content color id now s = s := by
  refine ⟨?_, ?_, ?_, ?_, ?_⟩ <;>
    simp [handleAddHighlight, handleAddTodo, handleAddEvent,
      handleAddIdeapadNote, handleAddResource, hblank]

/-- C3 (witness): a whitespace-only input is rejected by each handler. -/
theorem handleAdd_blank_primary_noop_witness :
    handleAddHighlight " " "2024-05-01" "bg-red-200" "i1" 7 danglingState = danglingState ∧
    handleAddTodo " " "bg-red-200" "i1" 7 danglingState = danglingState ∧
    handleAddEvent (fun _ => 0) " " (some "2024-05-01") "bg-red-200" 0 none none "i1" 7
      danglingState = danglingState ∧
    handleAddIdeapadNote " " "bg-red-200" "i1" 7 danglingState = danglingState ∧
    handleAddResource " " RKind.link "c" "bg-red-200" "i1" 7 danglingState = danglingState :=
  handleAdd_blank_primary_noop (fun _ => 0) " " "2024-05-01" "bg-red-200" "i1" "c"
    RKind.link (some "2024-05-01") 0 7 none none danglingState (by decide)

/-- C4: after any finite sequence of add/delete/toggle operations
starting from collections satisfying the sort invariant (in particular
from the empty state), every collection satisfies its order invariant:
highlights, resources and ideapad notes descending by `createdAt`;
todos with incomplete entries before complete ones and descending
`createdAt` within each group; events ascending by date value (the
JS `new Date(·).getTime()` valuation `dv`), ties broken by descending
`createdAt`. -/
theorem runOps_preserves_sort_order (dv : String → Int) (ops : List Op)
    (s : AppState) (hinv : sortedInv dv s) :
    (runOps dv ops s).highlights.Pairwise (fun a b => b.createdAt ≤ a.createdAt) ∧
    (runOps dv ops s).resources.Pairwise (fun a b => b.createdAt ≤ a.createdAt) ∧
    (runOps dv ops s).ideapadNotes.Pairwise (fun a b => b.createdAt ≤ a.createdAt) ∧
    (runOps dv ops s).todos.Pairwise (fun a b =>
      (a.completed = false ∧ b.completed = true) ∨
        (a.completed = b.completed ∧ b.createdAt ≤ a.createdAt)) ∧
    (runOps dv ops s).events.Pairwise (fun a b =>
      dv a.date < dv b.date ∨ (dv a.date = dv b.date ∧ b.createdAt ≤ a.createdAt)) := by
  obtain ⟨h1, h2, h3, h4, h5⟩ := runOps_sortedInv dv ops s hinv
  exact ⟨h1.imp fun hab => (hlLE_iff _ _).mp hab,
    h4.imp fun hab => (resLE_iff _ _).mp hab,
    h5.imp fun hab => (noteLE_iff _ _).mp hab,
    h2.imp fun hab => (todoLE_iff _ _).mp hab,
    h3.imp fun hab => (evLE_iff dv _ _).mp hab⟩

/-- C4 (witness): a concrete mutation sequence from the empty state. -/
theorem runOps_preserves_sort_order_witness :
    (runOps (fun _ => 0)
        [Op.addTodo "a" "bg-red-200" "i1" 5, Op.addTodo "b" "bg-red-200" "i2" 9,
          Op.toggleTodo "i1", Op.addHighlight "h" "2024-05-01" "bg-red-200" "i3" 4,
          Op.deleteTodo "i2"] emptyState).highlights.Pairwise
      (fun a b => b.createdAt ≤ a.createdAt) ∧
    (runOps (fun _ => 0)
        [Op.addTodo "a" "bg-red-200" "i1" 5, Op.addTodo "b" "bg-red-200" "i2" 9,
          Op.toggleTodo "i1", Op.addHighlight "h" "2024-05-01" "bg-red-200" "i3" 4,
          Op.deleteTodo "i2"] emptyState).resources.Pairwise
      (fun a b => b.createdAt ≤ a.createdAt) ∧
    (runOps (fun _ => 0)
        [Op.addTodo "a" "bg-red-200" "i1" 5, Op.addTodo "b" "bg-red-200" "i2" 9,
          Op.toggleTodo "i1", Op.addHighlight "h" "2024-05-01" "bg-red-200" "i3" 4,
          Op.deleteTodo "i2"] emptyState).ideapadNotes.Pairwise
      (fun a b => b.createdAt ≤ a.createdAt) ∧
    (runOps (fun _ => 0)
        [Op.addTodo "a" "bg-red-200" "i1" 5, Op.addTodo "b" "bg-red-200" "i2" 9,
          Op.toggleTodo "i1", Op.addHighlight "h" "2024-05-01" "bg-red-200" "i3" 4,
          Op.deleteTodo "i2"] emptyState).todos.Pairwise
      (fun a b =>
        (a.completed = false ∧ b.completed = true) ∨
          (a.completed = b.completed ∧ b.createdAt ≤ a.createdAt)) ∧
    (runOps (fun _ => 0)
        [Op.addTodo "a" "bg-red-200" "i1" 5, Op.addTodo "b" "bg-red-200" "i2" 9,
          Op.toggleTodo "i1", Op.addHighlight "h" "2024-05-01" "bg-red-200" "i3" 4,
          Op.deleteTodo "i2"] emptyState).events.Pairwise
      (fun a b =>
        (fun _ => (0 : Int)) a.date < (fun _ => (0 : Int)) b.date ∨
          ((fun _ => (0 : Int)) a.date = (fun _ => (0 : Int)) b.date ∧
            b.createdAt ≤ a.createdAt)) :=
  runOps_preserves_sort_order (fun _ => 0)
    [Op.addTodo "a" "bg-red-200" "i1" 5, Op.addTodo "b" "bg-red-200" "i2" 9,
      Op.toggleTodo "i1", Op.addHighlight "h" "2024-05-01" "bg-red-200" "i3" 4,
      Op.deleteTodo "i2"] emptyState (emptyState_sortedInv _)

/-- C5: applying `toggleTodo id` twice restores every todo exactly
(each todo's `completed` field returns to its original value and every
other field, and every other todo, is unchanged — the todos multiset is
restored; only display position among equal sort keys can differ), and
the other four collections are untouched. -/
theorem toggleTodo_twice_restores_todos (id : String) (s : AppState) :
    ((toggleTodo id (toggleTodo id s)).todos).Perm s.todos ∧
    (toggleTodo id (toggleTodo id s)).highlights = s.highlights ∧
    (toggleTodo id (toggleTodo id s)).events = s.events ∧
    (toggleTodo id (toggleTodo id s)).resources = s.resources ∧
    (toggleTodo id (toggleTodo id s)).ideapadNotes = s.ideapadNotes := by
  refine ⟨?_, rfl, rfl, rfl, rfl⟩
  have hflip : ∀ t, toggleOne id (toggleOne id t) = t := by
    intro t
    obtain ⟨tid, ttext, tc, tcol, tca⟩ := t
    by_cases h : tid = id <;> simp [toggleOne, h]
  have hmap : ((s.todos.map (toggleOne id)).map (toggleOne id)) = s.todos := by
    rw [List.map_map]
    simp only [Function.comp_def, hflip, List.map_id']
  have p1 : ((toggleTodo id (toggleTodo id s)).todos).Perm
      ((List.insertionSort todoLE (s.todos.map (toggleOne id))).map (toggleOne id)) :=
    List.perm_insertionSort _ _
  have p2 : (((List.insertionSort todoLE (s.todos.map (toggleOne id))).map
      (toggleOne id))).Perm ((s.todos.map (toggleOne id)).map (toggleOne id)) :=
    (List.perm_insertionSort _ _).map _
  have p3 : (((s.todos.map (toggleOne id)).map (toggleOne id))).Perm s.todos := by
    rw [hmap]
  exact (p1.trans p2).trans p3

/-- C6: `add` immediately followed by `delete` of the freshly produced
id returns each collection to its pre-add contents up to reapplying the
collection's sort (and exactly to its pre-add state when the collection
already satisfied the §4.1 sort invariant, since the stable sort then
fixes it). -/
theorem add_then_delete_roundtrip (dv : String → Int)
    (text datetime color name content title date : String) (ty : RKind)
    (time now : Int) (rh rr : Option String) (nid : String) (s : AppState) :
    ((∀ h ∈ s.highlights, h.id ≠ nid) →
      (deleteHighlight nid (addHighlight text datetime color nid now s)).highlights =
        List.insertionSort hlLE s.highlights) ∧
    ((∀ t ∈ s.todos, t.id ≠ nid) →
      (deleteTodo nid (addTodo text color nid now s)).todos =
        List.insertionSort todoLE s.todos) ∧
    ((∀ e ∈ s.events, e.id ≠ nid) →
      (deleteEvent nid (addEvent dv title date color time rh rr nid now s)).events =
        List.insertionSort (evLE dv) s.events) ∧
    ((∀ r ∈ s.resources, r.id ≠ nid) →
      (deleteResource nid (addResource name ty content color nid now s)).resources =
        List.insertionSort resLE s.resources) ∧
    ((∀ n ∈ s.ideapadNotes, n.id ≠ nid) →
      (deleteIdeapadNote nid (addIdeapadNote text color nid now s)).ideapadNotes =
        List.insertionSort noteLE s.ideapadNotes) := by
  refine ⟨fun hf => ?_, fun hf => ?_, fun hf => ?_, fun hf => ?_, fun hf => ?_⟩ <;>
    simp only [deleteHighlight, deleteTodo, deleteEvent, deleteResource, deleteIdeapadNote,
      addHighlight, addTodo, addEvent, addResource, addIdeapadNote] <;>
    exact filter_insertionSort_append _ _ _ _ (by simp)
      (fun y hy => by simpa using hf y hy)

/-- C6 (witness): a concrete add/delete round trip on each collection. -/
theorem add_then_delete_roundtrip_witness :
    (deleteHighlight "z" (addHighlight "x" "2024-05-01" "bg-red-200" "z" 7
        danglingState)).highlights = List.insertionSort hlLE danglingState.highlights ∧
    (deleteTodo "z" (addTodo "x" "bg-red-200" "z" 7 danglingState)).todos =
      List.insertionSort todoLE danglingState.todos ∧
    (deleteEvent "z" (addEvent (fun _ => 0) "m" "2024-05-02" "bg-red-200" 1 none none "z" 7
        danglingState)).events =
      List.insertionSort (evLE (fun _ => 0)) danglingState.events ∧
    (deleteResource "z" (addResource "x" RKind.link "c" "bg-red-200" "z" 7
        danglingState)).resources = List.insertionSort resLE danglingState.resources ∧
    (deleteIdeapadNote "z" (addIdeapadNote "x" "bg-red-200" "z" 7
        danglingState)).ideapadNotes = List.insertionSort noteLE danglingState.ideapadNotes :=
  have h := add_then_delete_roundtrip (fun _ => 0) "x" "2024-05-01" "bg-red-200" "x" "c"
    "m" "2024-05-02" RKind.link 1 7 none none "z" danglingState
  ⟨h.1 (by decide), h.2.1 (by decide), h.2.2.1 (by decide),
    h.2.2.2.1 (by decide), h.2.2.2.2 (by decide)⟩

/-- C7 (counterexample): hydration failure is not isolated per
collection.  Here the highlights document is present and parses to a
one-element list, the todos document is present and fails to parse —
yet the highlights collection initializes empty instead of hydrating
from its own document. -/
theorem load_parse_failure_not_isolated :
    storageSample "appData_highlights" = some "good" ∧
    parseHSample "good" = some [hSample] ∧
    storageSample "appData_todos" = some "bad" ∧
    parseTSample "bad" = none ∧
    (loadApp storageSample parseHSample parseTSample parseESample parseRSample
        parseISample).highlights = [] ∧
    [hSample] ≠ ([] : List Highlight) := by
  refine ⟨rfl, by decide, rfl, by decide, rfl, by simp⟩

/-- C7 (amended): a missing document initializes only its own
collection empty while the other four hydrate from their documents, but
a document that is present and fails JSON parsing causes ALL five
collections to initialize empty — load failure from parsing is global,
not isolated per collection. -/
theorem load_parse_failure_global (getItem : String → Option String)
    (pH : String → Option (List Highlight)) (pT : String → Option (List Todo))
    (pE : String → Option (List CalendarEvent)) (pR : String → Option (List Resource))
    (pI : String → Option (List IdeaNote)) :
    ((docBad pH (getItem "appData_highlights") ∨ docBad pT (getItem "appData_todos") ∨
        docBad pE (getItem "appData_events") ∨ docBad pR (getItem "appData_resources") ∨
        docBad pI (getItem "appData_ideapadNotes")) →
      loadApp getItem pH pT pE pR pI = emptyState) ∧
    (docOK pH (getItem "appData_highlights") → docOK pT (getItem "appData_todos") →
      docOK pE (getItem "appData_events") → docOK pR (getItem "appData_resources") →
      docOK pI (getItem "appData_ideapadNotes") →
      loadApp getItem pH pT pE pR pI =
        AppState.mk (hydOf pH (getItem "appData_highlights"))
          (hydOf pT (getItem "appData_todos")) (hydOf pE (getItem "appData_events"))
          (hydOf pR (getItem "appData_resources"))
          (hydOf pI (getItem "appData_ideapadNotes"))) := by
  constructor
  · intro hbad
    refine assembleLoaded_of_error _ _ _ _ _ ?_
    rcases hbad with hb | hb | hb | hb | hb
    · exact Or.inl (hydrateStep_of_docBad _ _ hb)
    · exact Or.inr (Or.inl (hydrateStep_of_docBad _ _ hb))
    · exact Or.inr (Or.inr (Or.inl (hydrateStep_of_docBad _ _ hb)))
    · exact Or.inr (Or.inr (Or.inr (Or.inl (hydrateStep_of_docBad _ _ hb))))
    · exact Or.inr (Or.inr (Or.inr (Or.inr (hydrateStep_of_docBad _ _ hb))))
  · intro okH okT okE okR okI
    unfold loadApp
    rw [hydrateStep_of_docOK _ _ okH, hydrateStep_of_docOK _ _ okT,
      hydrateStep_of_docOK _ _ okE, hydrateStep_of_docOK _ _ okR,
      hydrateStep_of_docOK _ _ okI]
    rfl

/-- C7 (witness): a failing todos document wipes all collections; a
storage holding only a parseable todos document hydrates only todos. -/
theorem load_parse_failure_global_witness :
    loadApp storageSample parseHSample parseTSample parseESample parseRSample
      parseISample = emptyState ∧
    loadApp (fun k => if k = "appData_todos" then some "ok" else none)
      parseHSample parseTSample parseESample parseRSample parseISample =
        AppState.mk [] [tSample] [] [] [] :=
  ⟨(load_parse_failure_global storageSample parseHSample parseTSample parseESample
      parseRSample parseISample).1
      (Or.inr (Or.inl ⟨"bad", by decide, by decide⟩)),
   (load_parse_failure_global (fun k => if k = "appData_todos" then some "ok" else none)
      parseHSample parseTSample parseESample parseRSample parseISample).2
      (by intro s hs; simp at hs) (by intro s hs; simp at hs; simp [hs, parseTSample])
      (by intro s hs; simp at hs) (by intro s hs; simp at hs) (by intro s hs; simp at hs)⟩

/-- C8: the import `onload` callback never invokes `onImport` on a file
whose text fails to parse as JSON (so the collections stay untouched)
and surfaces a user-visible error message; on a successful parse it
hands the parsed document to `onImport` and clears the error. -/
theorem handleImport_parse_behavior {δ : Type} (parse : String → Option δ)
    (content : String) :
    (parse content = none →
      (handleImportOnload parse content).calls = [] ∧
        (handleImportOnload parse content).errorMsg.isSome = true) ∧
    (∀ d, parse content = some d →
      (handleImportOnload parse content).calls = [d] ∧
        (handleImportOnload parse content).errorMsg = none) := by
  constructor
  · intro h
    simp [handleImportOnload, h]
  · intro d h
    simp [handleImportOnload, h]

/-- C8 (witness): one failing and one succeeding parse. -/
theorem handleImport_parse_behavior_witness :
    ((handleImportOnload (fun s => if s = "[1]" then some 1 else none) "oops").calls = [] ∧
      (handleImportOnload (fun s => if s = "[1]" then some 1 else none)
          "oops").errorMsg.isSome = true) ∧
    ((handleImportOnload (fun s => if s = "[1]" then some 1 else none) "[1]").calls = [1] ∧
      (handleImportOnload (fun s => if s = "[1]" then some 1 else none)
          "[1]").errorMsg = none) :=
  ⟨(handleImport_parse_behavior (fun s => if s = "[1]" then some 1 else none) "oops").1
      (by decide),
   (handleImport_parse_behavior (fun s => if s = "[1]" then some 1 else none) "[1]").2 1
      (by decide)⟩

/-- C9: `addEvent` performs no referential-integrity check: even when
no highlight matches `rh` and no resource matches `rr`, the new event
is stored carrying both ids verbatim, and the highlights and resources
collections are left untouched — a dangling reference exists right
after creation. -/
theorem addEvent_stores_dangling_refs (dv : String → Int)
    (title date color : String) (time : Int) (rh rr : Option String)
    (id : String) (now : Int) (s : AppState)
    (hnoH : ∀ h ∈ s.highlights, some h.id ≠ rh)
    (hnoR : ∀ r ∈ s.resources, some r.id ≠ rr) :
    (⟨id, title, date, time, color, rh, rr, now⟩ : CalendarEvent) ∈
      (addEvent dv title date color time rh rr id now s).events ∧
    (addEvent dv title date color time rh rr id now s).highlights = s.highlights ∧
    (addEvent dv title date color time rh rr id now s).resources = s.resources := by
  refine ⟨?_, rfl, rfl⟩
  exact (List.mem_insertionSort _).mpr (by simp [addEvent])

/-- C9 (witness): a dangling event created over empty highlight and
resource collections. -/
theorem addEvent_stores_dangling_refs_witness :
    (⟨"z", "m", "2024-05-02", 1, "bg-red-200", some "nope", some "nada", 7⟩ :
        CalendarEvent) ∈
      (addEvent (fun _ => 0) "m" "2024-05-02" "bg-red-200" 1 (some "nope") (some "nada")
          "z" 7 danglingState).events ∧
    (addEvent (fun _ => 0) "m" "2024-05-02" "bg-red-200" 1 (some "nope") (some "nada")
        "z" 7 danglingState).highlights = danglingState.highlights ∧
    (addEvent (fun _ => 0) "m" "2024-05-02" "bg-red-200" 1 (some "nope") (some "nada")
        "z" 7 danglingState).resources = danglingState.resources :=
  addEvent_stores_dangling_refs (fun _ => 0) "m" "2024-05-02" "bg-red-200" 1
    (some "nope") (some "nada") "z" 7 danglingState (by decide) (by decide)

/-- C10: frame conditions — every mutation leaves the collections it is
not specified for unchanged: each add and `deleteTodo`, `deleteEvent`,
`deleteIdeapadNote` touch only their own collection; `deleteHighlight`
touches only highlights and events; `deleteResource` touches only
resources and events. -/
theorem mutations_frame_conditions (dv : String → Int)
    (text datetime color name content title date id : String) (ty : RKind)
    (time now : Int) (rh rr : Option String) (s : AppState) :
    (addHighlight text datetime color id now s).todos = s.todos ∧
    (addHighlight text datetime color id now s).events = s.events ∧
    (addHighlight text datetime color id now s).resources = s.resources ∧
    (addHighlight text datetime color id now s).ideapadNotes = s.ideapadNotes ∧
    (addTodo text color id now s).highlights = s.highlights ∧
    (addTodo text color id now s).events = s.events ∧
    (addTodo text color id now s).resources = s.resources ∧
    (addTodo text color id now s).ideapadNotes = s.ideapadNotes ∧
    (addEvent dv title date color time rh rr id now s).highlights = s.highlights ∧
    (addEvent dv title date color time rh rr id now s).todos = s.todos ∧
    (addEvent dv title date color time rh rr id now s).resources = s.resources ∧
    (addEvent dv title date color time rh rr id now s).ideapadNotes = s.ideapadNotes ∧
    (addResource name ty content color id now s).highlights = s.highlights ∧
    (addResource name ty content color id now s).todos = s.todos ∧
    (addResource name ty content color id now s).events = s.events ∧
    (addResource name ty content color id now s).ideapadNotes = s.ideapadNotes ∧
    (addIdeapadNote text color id now s).highlights = s.highlights ∧
    (addIdeapadNote text color id now s).todos = s.todos ∧
    (addIdeapadNote text color id now s).events = s.events ∧
    (addIdeapadNote text color id now s).resources = s.resources ∧
    (deleteTodo id s).highlights = s.highlights ∧
    (deleteTodo id s).events = s.events ∧
    (deleteTodo id s).resources = s.resources ∧
    (deleteTodo id s).ideapadNotes = s.ideapadNotes ∧
    (deleteEvent id s).highlights = s.highlights ∧
    (deleteEvent id s).todos = s.todos ∧
    (deleteEvent id s).resources = s.resources ∧
    (deleteEvent id s).ideapadNotes = s.ideapadNotes ∧
    (deleteIdeapadNote id s).highlights = s.highlights ∧
    (deleteIdeapadNote id s).todos = s.todos ∧
    (deleteIdeapadNote id s).events = s.events ∧
    (deleteIdeapadNote id s).resources = s.resources ∧
    (deleteHighlight id s).todos = s.todos ∧
    (deleteHighlight id s).resources = s.resources ∧
    (deleteHighlight id s).ideapadNotes = s.ideapadNotes ∧
    (deleteResource id s).highlights = s.highlights ∧
    (deleteResource id s).todos = s.todos ∧
    (deleteResource id s).ideapadNotes = s.ideapadNotes :=
  ⟨rfl, rfl, rfl, rfl, rfl, rfl, rfl, rfl, rfl, rfl, rfl, rfl, rfl, rfl, rfl, rfl,
    rfl, rfl, rfl, rfl, rfl, rfl, rfl, rfl, rfl, rfl, rfl, rfl, rfl, rfl, rfl, rfl,
    rfl, rfl, rfl, rfl, rfl, rfl⟩

end NoteApp
